import Mathlib

/-!
A shallow embedding of `src/main.py` of the mediator-bot service, centred on the
mediation decision processor `process_mediation`, together with proofs of its
classification and fallback behaviour.

The two external collaborators of the processor are passed in explicitly:

* the configured completion client (`cerebras_client`), modelled as the function
  it provides from the constructed prompt to a completion result, or `none` when
  the `CEREBRAS_API_KEY` credential is unset;
* the standard-library JSON decoder `json.loads`, modelled as a function from the
  extracted brace substring to the decoded object, or `none` when decoding fails
  (a `json.JSONDecodeError` in Python).

Exceptions inside the processor body are made explicit with `Except`, mirroring
the nested `try`/`except` structure of the source.  `print` logging is omitted.
-/

/-- A chat message as in `class Message(BaseModel)` (lines 21-23): a free-form
`role` string and a `content` string. -/
structure Message where
  role : String
  content : String
deriving DecidableEq

/-- The outcome model `class MessageResponse(BaseModel)` (lines 29-35): a required
`response` string, a `mediation_triggered` flag defaulting to `False`, and four
optional NVC fields defaulting to `None` (absent). -/
structure MessageResponse where
  response : String
  mediation_triggered : Bool := false
  observations : Option String := none
  feelings : Option String := none
  needs : Option String := none
  requests : Option String := none
deriving DecidableEq

/-- A JSON value as produced by the standard-library decoder, restricted to the
shapes the decoded mediation objects are specified to carry: JSON `null` and JSON
strings.  (Other JSON value kinds handed to the pydantic constructor would be
subject to coercion behaviour of the installed pydantic version, which is not part
of this repository and is outside this model.) -/
inductive JsonVal where
  | null : JsonVal
  | str : String → JsonVal
deriving DecidableEq

/-- A decoded JSON object: the key/value pairs of the Python `dict` returned by
`json.loads` (keys of a decoded object are unique). -/
abbrev JsonObj := List (String × JsonVal)

/-- The result of `cerebras_client.chat.completions.create(...)` followed by
`response.choices[0].message.content.strip()` (lines 61-69): either the completed
text, or `failure`, standing for any raising behaviour of the call (network or
provider error, timeout, malformed response object, missing choices, `None`
content). -/
inductive CompletionResult where
  | failure : CompletionResult
  | success : String → CompletionResult

/-- The Python exceptions that the body of `process_mediation` can raise and that
its `try`/`except` blocks dispatch on. -/
inductive PyExc where
  | jsonDecodeError : PyExc
  | validationError : PyExc

/-- Python whitespace, as stripped by `str.strip()`. -/
def isPySpace (c : Char) : Bool :=
  c == ' ' || c == '\t' || c == '\n' || c == '\r' || c == '\x0b' || c == '\x0c'

/-- `str.strip()` on the character list: drop Python whitespace from both ends. -/
def pyStripData (l : List Char) : List Char :=
  ((l.dropWhile isPySpace).reverse.dropWhile isPySpace).reverse

/-- `str.strip()` (line 69). -/
def pyStrip (s : String) : String := ⟨pyStripData s.data⟩

/-- Does `l` start with `n`? (Used to define Python's substring test.) -/
def startsWithList : List Char → List Char → Bool
  | _, [] => true
  | [], _ :: _ => false
  | c :: cs, d :: ds => c == d && startsWithList cs ds

/-- Python's substring test `n in l` (line 75). -/
def containsSub : List Char → List Char → Bool
  | [], n => n == ([] : List Char)
  | c :: t, n => startsWithList (c :: t) n || containsSub t n

/-- Python `str.find` for a single-character needle: the index of the first
occurrence of `c`, or nothing (where Python returns `-1`). -/
def findIdxC (c : Char) : List Char → Option Nat
  | [] => none
  | d :: l => if d == c then some 0 else (findIdxC c l).map (· + 1)

/-- Python `str.rfind` for a single character: the index of the last occurrence. -/
def rfindIdxC (c : Char) (l : List Char) : Option Nat :=
  (findIdxC c l.reverse).map (fun k => l.length - 1 - k)

/-- Lines 82-87: `json_start = ai_response.find("{")`,
`json_end = ai_response.rfind("}") + 1`; when
`json_start != -1 and json_end > json_start`, the slice
`ai_response[json_start:json_end]`; otherwise no extraction.  (When `rfind`
returns `-1`, Python's `json_end` is `0`, which never exceeds a non-negative
`json_start`, so that case also extracts nothing.) -/
def extractJson (l : List Char) : Option (List Char) :=
  match findIdxC '{' l, rfindIdxC '}' l with
  | some json_start, some j =>
      if json_start < j + 1 then some ((l.drop json_start).take (j + 1 - json_start))
      else none
  | _, _ => none

/-- The sentinel literal of line 75. -/
def SENTINEL : String := "[[NO MEDIATION NEEDED]]"

/-- The listening fallback built at lines 44-47 and again at lines 77-80. -/
def listening_response : MessageResponse :=
  { response := "I\x27m listening. Continue your conversation.", mediation_triggered := false }

/-- The step-back fallback built at lines 122-125. -/
def step_back_response : MessageResponse :=
  { response := "Let\x27s take a step back and try to understand each other\x27s perspectives.",
    mediation_triggered := false }

/-- `messages[-5:]`: the last five messages, or all of them when there are fewer. -/
def lastFive (messages : List Message) : List Message :=
  messages.drop (messages.length - 5)

/-- Line 51: the last five messages formatted as `role: content` lines joined by
newlines. -/
def messages_text (messages : List Message) : String :=
  String.intercalate "\n" ((lastFive messages).map (fun msg => msg.role ++ ": " ++ msg.content))

/-- Lines 54-57: the fixed prompt template with the formatted messages
interpolated (the doubled braces of the Python f-string denote literal braces). -/
def prompt (messages : List Message) : String :=
  "You are a mediator for a group house chat. I want you to notice messages that are excessively far from being phrased in NVC when conversations are becoming heated. Respond with \x7b\"response\": \"[[NO MEDIATION NEEDED]]\"\x7d when the convo is ok. Respond as a mediator and with a suggested NVC translation in other cases.\n"
  ++ messages_text messages ++
  "\n\nThink step by step, if mediation is needed return a JSON like this: \x7b\"response\": \"I notice some tension here. Let me help translate this using NVC.\", \"observations\": \"I observe that harsh words were used\", \"feelings\": \"There seems to be frustration and hurt\", \"needs\": \"The need for respect and understanding\", \"requests\": \"Could you try expressing your concern without blame?\"\x7d. Otherwise return \x7b\"response\": \"[[NO MEDIATION NEEDED]]\"\x7d."

/-- `parsed_response.get(key)` for the four `Optional[str]` NVC fields
(lines 97-100): the stored string when the key maps to a string; `None` both when
the key is missing and when it maps to JSON `null`. -/
def nvcGet (parsed_response : JsonObj) (key : String) : Option String :=
  match parsed_response.lookup key with
  | some (JsonVal.str s) => some s
  | _ => none

/-- Lines 92-101: construct the `MessageResponse` from the parsed object.
`parsed_response.get("response", "Let me help mediate this conversation.")`
returns the stored value whenever the key is present — also when that value is
`None` — and the default only when the key is absent.  Passing `None` for the
required `str` field `response` makes the pydantic constructor raise a validation
error, which is not a `json.JSONDecodeError` and therefore escapes to the outer
`except Exception`. -/
def build_message_response (parsed_response : JsonObj) : Except PyExc MessageResponse :=
  match parsed_response.lookup "response" with
  | some JsonVal.null => Except.error PyExc.validationError
  | some (JsonVal.str s) =>
      Except.ok { response := s, mediation_triggered := true,
                  observations := nvcGet parsed_response "observations",
                  feelings := nvcGet parsed_response "feelings",
                  needs := nvcGet parsed_response "needs",
                  requests := nvcGet parsed_response "requests" }
  | none =>
      Except.ok { response := "Let me help mediate this conversation.",
                  mediation_triggered := true,
                  observations := nvcGet parsed_response "observations",
                  feelings := nvcGet parsed_response "feelings",
                  needs := nvcGet parsed_response "needs",
                  requests := nvcGet parsed_response "requests" }

/-- Lines 73-108, the body of the inner `try`: sentinel check first, then brace
extraction, then `json.loads` (whose failure raises `json.JSONDecodeError`), then
outcome construction. -/
def try_parse (json_loads : String → Option JsonObj) (ai_response : String) :
    Except PyExc MessageResponse :=
  if containsSub ai_response.data SENTINEL.data then Except.ok listening_response
  else
    match extractJson ai_response.data with
    | some json_str =>
        match json_loads ⟨json_str⟩ with
        | some parsed_response => build_message_response parsed_response
        | none => Except.error PyExc.jsonDecodeError
    | none => Except.ok { response := ai_response, mediation_triggered := true }

/-- Lines 73-117: the inner `try` together with its `except json.JSONDecodeError`
handler (lines 110-117), which degrades a decode failure to the raw-text
fallback; every other exception keeps propagating. -/
def inner_result (json_loads : String → Option JsonObj) (ai_response : String) :
    Except PyExc MessageResponse :=
  match try_parse json_loads ai_response with
  | Except.error PyExc.jsonDecodeError =>
      Except.ok { response := ai_response, mediation_triggered := true }
  | r => r

/-- Lines 38-125, `process_mediation`: availability check, prompt construction,
the external completion call, response classification, and the outer
`except Exception` (lines 119-125), which converts both a failing call and any
exception escaping the inner block into the step-back fallback. -/
def process_mediation (cerebras_client : Option (String → CompletionResult))
    (json_loads : String → Option JsonObj) (messages : List Message) : MessageResponse :=
  match cerebras_client with
  | none => listening_response
  | some create =>
      match create (prompt messages) with
      | CompletionResult.failure => step_back_response
      | CompletionResult.success content =>
          match inner_result json_loads (pyStrip content) with
          | Except.ok r => r
          | Except.error _ => step_back_response

/-- Remove a key from a decoded object (used to compare a `null`-valued key with
an absent one). -/
def removeKey (k : String) : JsonObj → JsonObj
  | [] => []
  | (key, v) :: rest => if key = k then removeKey k rest else (key, v) :: removeKey k rest

/-- The NVC field of an outcome selected by its JSON key name. -/
def nvcProj (r : MessageResponse) (k : String) : Option String :=
  if k = "observations" then r.observations
  else if k = "feelings" then r.feelings
  else if k = "needs" then r.needs
  else if k = "requests" then r.requests
  else none

/-- The four NVC keys of the decoded object. -/
def nvcKeys : List String := ["observations", "feelings", "needs", "requests"]

/-! ### List lemmas about the find/rfind/slice extraction and about stripping -/

theorem findIdxC_lt_length {c : Char} : ∀ {l : List Char} {i : Nat},
    findIdxC c l = some i → i < l.length := by
  intro l
  induction l with
  | nil => intro i h; simp [findIdxC] at h
  | cons d t ih =>
    intro i h
    simp only [findIdxC] at h
    split at h
    · cases h; simp
    · cases ht : findIdxC c t with
      | none => rw [ht] at h; simp at h
      | some k =>
        rw [ht] at h
        simp only [Option.map_some'] at h
        cases h
        have := ih ht
        simp only [List.length_cons]
        omega

theorem findIdxC_eq_none {c : Char} {l : List Char} (h : ∀ d ∈ l, (d == c) = false) :
    findIdxC c l = none := by
  induction l with
  | nil => rfl
  | cons d t ih =>
    have hd := h d (List.mem_cons_self d t)
    have ht := ih (fun x hx => h x (List.mem_cons_of_mem d hx))
    simp [findIdxC, hd, ht]

theorem findIdxC_append_of_none {c : Char} {m : List Char} (q : List Char)
    (h : findIdxC c m = none) :
    findIdxC c (m ++ q) = (findIdxC c q).map (· + m.length) := by
  induction m with
  | nil =>
    simp only [List.nil_append, List.length_nil]
    cases findIdxC c q <;> simp
  | cons d t ih =>
    rw [List.cons_append]
    simp only [findIdxC] at h ⊢
    by_cases hd : (d == c) = true
    · rw [if_pos hd] at h
      exact absurd h (by simp)
    · rw [if_neg hd] at h ⊢
      cases ht : findIdxC c t with
      | some k => rw [ht] at h; simp at h
      | none =>
        rw [ih ht]
        cases hq : findIdxC c q with
        | none => simp
        | some k => simp only [Option.map_some', List.length_cons]; congr 1

theorem findIdxC_append_of_some {c : Char} {m : List Char} {i : Nat} (q : List Char)
    (h : findIdxC c m = some i) :
    findIdxC c (m ++ q) = some i := by
  induction m generalizing i with
  | nil => simp [findIdxC] at h
  | cons d t ih =>
    rw [List.cons_append]
    simp only [findIdxC] at h ⊢
    by_cases hd : (d == c) = true
    · rw [if_pos hd] at h ⊢
      exact h
    · rw [if_neg hd] at h ⊢
      cases ht : findIdxC c t with
      | none => rw [ht] at h; simp at h
      | some k =>
        rw [ht] at h
        rw [ih ht]
        exact h

theorem drop_append_len (p m : List Char) (i : Nat) :
    (p ++ m).drop (p.length + i) = m.drop i := by
  induction p with
  | nil => simp
  | cons d t ih =>
    simp only [List.cons_append, List.length_cons]
    rw [show t.length + 1 + i = (t.length + i) + 1 by omega, List.drop_succ_cons]
    exact ih

theorem drop_append_le (m q : List Char) (i : Nat) (h : i ≤ m.length) :
    (m ++ q).drop i = m.drop i ++ q := by
  induction m generalizing i with
  | nil =>
    simp only [List.length_nil, Nat.le_zero] at h
    subst h; simp
  | cons d t ih =>
    cases i with
    | zero => simp
    | succ n =>
      simp only [List.cons_append, List.drop_succ_cons]
      exact ih n (by simpa using h)

theorem take_append_le (m q : List Char) (n : Nat) (h : n ≤ m.length) :
    (m ++ q).take n = m.take n := by
  induction m generalizing n with
  | nil =>
    simp only [List.length_nil, Nat.le_zero] at h
    subst h; simp
  | cons d t ih =>
    cases n with
    | zero => simp
    | succ k =>
      simp only [List.cons_append, List.take_succ_cons]
      rw [ih k (by simpa using h)]

theorem space_ne_braces {d : Char} (h : isPySpace d = true) :
    ((d == '{') = false) ∧ ((d == '}') = false) := by
  simp only [isPySpace, Bool.or_eq_true, beq_iff_eq] at h
  rcases h with ((((h | h) | h) | h) | h) | h <;> subst h <;> exact ⟨by decide, by decide⟩

theorem pyStripData_decomp (l : List Char) :
    ∃ p q, l = p ++ pyStripData l ++ q ∧
      (∀ c ∈ p, isPySpace c = true) ∧ (∀ c ∈ q, isPySpace c = true) := by
  refine ⟨l.takeWhile isPySpace,
    ((l.dropWhile isPySpace).reverse.takeWhile isPySpace).reverse, ?_, ?_, ?_⟩
  · unfold pyStripData
    conv_lhs => rw [← List.takeWhile_append_dropWhile isPySpace l]
    rw [List.append_assoc]
    congr 1
    conv_lhs => rw [← List.reverse_reverse (l.dropWhile isPySpace)]
    conv_lhs =>
      rw [← List.takeWhile_append_dropWhile isPySpace (l.dropWhile isPySpace).reverse]
    rw [List.reverse_append]
  · exact fun c hc => List.mem_takeWhile_imp hc
  · intro c hc
    rw [List.mem_reverse] at hc
    exact List.mem_takeWhile_imp hc

theorem extractJson_none_of_find {l : List Char} (h : findIdxC '{' l = none) :
    extractJson l = none := by
  unfold extractJson
  rw [h]

theorem extractJson_none_of_rfind {l : List Char} (h : rfindIdxC '}' l = none) :
    extractJson l = none := by
  unfold extractJson
  rw [h]
  cases findIdxC '{' l <;> rfl

theorem extractJson_some_some {l : List Char} {i j : Nat}
    (hf : findIdxC '{' l = some i) (hr : rfindIdxC '}' l = some j) :
    extractJson l = if i < j + 1 then some ((l.drop i).take (j + 1 - i)) else none := by
  unfold extractJson
  rw [hf, hr]

theorem extractJson_embed (p core q : List Char)
    (hp : ∀ c ∈ p, isPySpace c = true) (hq : ∀ c ∈ q, isPySpace c = true) :
    extractJson (p ++ (core ++ q)) = extractJson core := by
  have hpO : findIdxC '{' p = none :=
    findIdxC_eq_none (fun d hd => (space_ne_braces (hp d hd)).1)
  have hqO : findIdxC '{' q = none :=
    findIdxC_eq_none (fun d hd => (space_ne_braces (hq d hd)).1)
  have hpC : findIdxC '}' p.reverse = none :=
    findIdxC_eq_none (fun d hd => (space_ne_braces (hp d (List.mem_reverse.mp hd))).2)
  have hqC : findIdxC '}' q.reverse = none :=
    findIdxC_eq_none (fun d hd => (space_ne_braces (hq d (List.mem_reverse.mp hd))).2)
  have hrev : (p ++ (core ++ q)).reverse = q.reverse ++ (core.reverse ++ p.reverse) := by
    simp [List.reverse_append, List.append_assoc]
  cases hfc : findIdxC '{' core with
  | none =>
    have h1 : findIdxC '{' (core ++ q) = none := by
      rw [findIdxC_append_of_none _ hfc, hqO]
      rfl
    have h2 : findIdxC '{' (p ++ (core ++ q)) = none := by
      rw [findIdxC_append_of_none _ hpO, h1]
      rfl
    rw [extractJson_none_of_find h2, extractJson_none_of_find hfc]
  | some i =>
    have hi : i < core.length := findIdxC_lt_length hfc
    have hfull_f : findIdxC '{' (p ++ (core ++ q)) = some (i + p.length) := by
      rw [findIdxC_append_of_none _ hpO, findIdxC_append_of_some _ hfc]
      rfl
    cases hrc : findIdxC '}' core.reverse with
    | none =>
      have h1 : findIdxC '}' (p ++ (core ++ q)).reverse = none := by
        rw [hrev, findIdxC_append_of_none _ hqC, findIdxC_append_of_none _ hrc, hpC]
        rfl
      have h2 : rfindIdxC '}' (p ++ (core ++ q)) = none := by
        unfold rfindIdxC
        rw [h1]
        rfl
      have h3 : rfindIdxC '}' core = none := by
        unfold rfindIdxC
        rw [hrc]
        rfl
      rw [extractJson_none_of_rfind h2, extractJson_none_of_rfind h3]
    | some k =>
      have hk : k < core.length := by
        have := findIdxC_lt_length hrc
        simpa using this
      have hrcore : rfindIdxC '}' core = some (core.length - 1 - k) := by
        unfold rfindIdxC
        rw [hrc]
        rfl
      have hfull_r : rfindIdxC '}' (p ++ (core ++ q)) =
          some (p.length + (core.length - 1 - k)) := by
        unfold rfindIdxC
        rw [hrev, findIdxC_append_of_none _ hqC, findIdxC_append_of_some _ hrc]
        simp only [Option.map_some', List.length_reverse, List.length_append]
        congr 1
        omega
      rw [extractJson_some_some hfull_f hfull_r, extractJson_some_some hfc hrcore]
      by_cases hij : i < (core.length - 1 - k) + 1
      · rw [if_pos (by omega), if_pos hij]
        congr 1
        have hdrop : (p ++ (core ++ q)).drop (i + p.length) = core.drop i ++ q := by
          rw [Nat.add_comm i p.length, drop_append_len,
            drop_append_le core q i (Nat.le_of_lt hi)]
        rw [hdrop]
        have hamount : p.length + (core.length - 1 - k) + 1 - (i + p.length) =
            (core.length - 1 - k) + 1 - i := by omega
        rw [hamount]
        exact take_append_le (core.drop i) q _ (by rw [List.length_drop]; omega)
      · rw [if_neg (by omega), if_neg hij]

theorem extractJson_strip (l : List Char) :
    extractJson (pyStripData l) = extractJson l := by
  obtain ⟨p, q, hl, hp, hq⟩ := pyStripData_decomp l
  generalize hc : pyStripData l = core at hl ⊢
  rw [hl, List.append_assoc]
  exact (extractJson_embed p core q hp hq).symm

/-! ### Lemmas about the substring test and stripping -/

theorem startsWithList_iff (l n : List Char) :
    startsWithList l n = true ↔ ∃ t, l = n ++ t := by
  induction n generalizing l with
  | nil =>
    simp only [List.nil_append]
    constructor
    · intro _; exact ⟨l, rfl⟩
    · intro _
      cases l <;> rfl
  | cons d m ih =>
    cases l with
    | nil =>
      simp only [startsWithList]
      constructor
      · intro h; exact absurd h (by simp)
      · rintro ⟨t, h⟩; exact absurd h (by simp)
    | cons c cs =>
      simp only [startsWithList, Bool.and_eq_true, beq_iff_eq, ih]
      constructor
      · rintro ⟨rfl, t, rfl⟩
        exact ⟨t, rfl⟩
      · rintro ⟨t, h⟩
        injection h with h1 h2
        exact ⟨h1, t, h2⟩

theorem containsSub_iff (l n : List Char) :
    containsSub l n = true ↔ ∃ s t, l = s ++ n ++ t := by
  induction l with
  | nil =>
    simp only [containsSub, beq_iff_eq]
    constructor
    · rintro rfl; exact ⟨[], [], rfl⟩
    · rintro ⟨s, t, h⟩
      rcases List.append_eq_nil.mp (List.append_eq_nil.mp h.symm).1 with ⟨-, h2⟩
      exact h2
  | cons c cs ih =>
    simp only [containsSub, Bool.or_eq_true, startsWithList_iff, ih]
    constructor
    · rintro (⟨t, h⟩ | ⟨s, t, h⟩)
      · exact ⟨[], t, by simpa using h⟩
      · exact ⟨c :: s, t, by simp [h]⟩
    · rintro ⟨s, t, h⟩
      cases s with
      | nil => exact Or.inl ⟨t, by simpa using h⟩
      | cons a as =>
        right
        rw [List.cons_append, List.cons_append] at h
        injection h with h1 h2
        exact ⟨as, t, h2⟩

theorem containsSub_dropWhile (l m : List Char) (a : Char) (ha : isPySpace a = false)
    (h : containsSub l (a :: m) = true) :
    containsSub (l.dropWhile isPySpace) (a :: m) = true := by
  induction l with
  | nil => simpa using h
  | cons c t ih =>
    cases hws : isPySpace c with
    | true =>
      rw [List.dropWhile_cons_of_pos hws]
      apply ih
      simp only [containsSub, Bool.or_eq_true] at h
      rcases h with h | h
      · rw [startsWithList_iff] at h
        obtain ⟨u, hu⟩ := h
        rw [List.cons_append] at hu
        injection hu with h1 h2
        rw [h1] at hws
        rw [hws] at ha
        exact absurd ha (by simp)
      · exact h
    | false =>
      rw [List.dropWhile_cons_of_neg (by simp [hws])]
      exact h

theorem containsSub_reverse (l n : List Char) :
    containsSub l.reverse n.reverse = true ↔ containsSub l n = true := by
  simp only [containsSub_iff]
  constructor
  · rintro ⟨s, t, h⟩
    refine ⟨t.reverse, s.reverse, ?_⟩
    have h2 := congrArg List.reverse h
    simpa [List.reverse_append, List.append_assoc] using h2
  · rintro ⟨s, t, h⟩
    refine ⟨t.reverse, s.reverse, ?_⟩
    have h2 := congrArg List.reverse h
    simpa [List.reverse_append, List.append_assoc] using h2

theorem sentinel_in_strip {l : List Char} (h : containsSub l SENTINEL.data = true) :
    containsSub (pyStripData l) SENTINEL.data = true := by
  have hS : SENTINEL.data = '[' :: "[NO MEDIATION NEEDED]]".data := by decide
  have h1 : containsSub (l.dropWhile isPySpace) SENTINEL.data = true := by
    rw [hS] at h ⊢
    exact containsSub_dropWhile l _ '[' (by decide) h
  have h2 : containsSub (l.dropWhile isPySpace).reverse SENTINEL.data.reverse = true :=
    (containsSub_reverse _ _).mpr h1
  have hSr : SENTINEL.data.reverse = ']' :: "]DEDEEN NOITAIDEM ON[[".data := by decide
  have h3 : containsSub ((l.dropWhile isPySpace).reverse.dropWhile isPySpace)
      SENTINEL.data.reverse = true := by
    rw [hSr] at h2 ⊢
    exact containsSub_dropWhile _ _ ']' (by decide) h2
  unfold pyStripData
  apply (containsSub_reverse
    ((l.dropWhile isPySpace).reverse.dropWhile isPySpace).reverse SENTINEL.data).mp
  rw [List.reverse_reverse]
  exact h3

theorem sentinel_of_strip {l n : List Char} (h : containsSub (pyStripData l) n = true) :
    containsSub l n = true := by
  obtain ⟨p, q, hl, -, -⟩ := pyStripData_decomp l
  rw [containsSub_iff] at h ⊢
  generalize hpc : pyStripData l = core at hl h
  obtain ⟨s, t, hst⟩ := h
  exact ⟨p ++ s, t ++ q, by rw [hl, hst]; simp [List.append_assoc]⟩

theorem no_sentinel_strip {l : List Char} (h : containsSub l SENTINEL.data = false) :
    containsSub (pyStripData l) SENTINEL.data = false := by
  cases hx : containsSub (pyStripData l) SENTINEL.data with
  | false => rfl
  | true =>
    have h2 := sentinel_of_strip hx
    rw [h] at h2
    exact absurd h2 (by simp)

theorem pyStrip_data (s : String) : (pyStrip s).data = pyStripData s.data := rfl

/-! ### Reduction lemmas for the processor branches -/

theorem build_message_response_ne_decode (obj : JsonObj) :
    build_message_response obj ≠ Except.error PyExc.jsonDecodeError := by
  unfold build_message_response
  cases h : obj.lookup "response" with
  | none => simp
  | some v => cases v <;> simp

theorem inner_result_sentinel {json_loads : String → Option JsonObj} {ai : String}
    (h : containsSub ai.data SENTINEL.data = true) :
    inner_result json_loads ai = Except.ok listening_response := by
  unfold inner_result try_parse
  rw [if_pos h]

theorem inner_result_parsed {json_loads : String → Option JsonObj} {ai : String}
    {js : List Char} {obj : JsonObj}
    (hs : containsSub ai.data SENTINEL.data = false)
    (he : extractJson ai.data = some js)
    (hp : json_loads ⟨js⟩ = some obj) :
    inner_result json_loads ai = build_message_response obj := by
  unfold inner_result try_parse
  rw [if_neg (by simp [hs]), he]
  simp only [hp]
  cases hb : build_message_response obj with
  | ok r => rfl
  | error e =>
    cases e with
    | jsonDecodeError => exact absurd hb (build_message_response_ne_decode obj)
    | validationError => rfl

theorem inner_result_no_braces {json_loads : String → Option JsonObj} {ai : String}
    (hs : containsSub ai.data SENTINEL.data = false)
    (he : extractJson ai.data = none) :
    inner_result json_loads ai =
      Except.ok { response := ai, mediation_triggered := true } := by
  unfold inner_result try_parse
  rw [if_neg (by simp [hs]), he]

theorem inner_result_bad_json {json_loads : String → Option JsonObj} {ai : String}
    {js : List Char}
    (hs : containsSub ai.data SENTINEL.data = false)
    (he : extractJson ai.data = some js)
    (hp : json_loads ⟨js⟩ = none) :
    inner_result json_loads ai =
      Except.ok { response := ai, mediation_triggered := true } := by
  unfold inner_result try_parse
  rw [if_neg (by simp [hs]), he]
  simp only [hp]

theorem process_mediation_success {create : String → CompletionResult}
    {json_loads : String → Option JsonObj} {messages : List Message} {text : String}
    (hc : create (prompt messages) = CompletionResult.success text) :
    process_mediation (some create) json_loads messages =
      match inner_result json_loads (pyStrip text) with
      | Except.ok r => r
      | Except.error _ => step_back_response := by
  unfold process_mediation
  simp only [hc]

theorem process_mediation_cases (cerebras_client : Option (String → CompletionResult))
    (json_loads : String → Option JsonObj) (messages : List Message) :
    process_mediation cerebras_client json_loads messages = listening_response ∨
    process_mediation cerebras_client json_loads messages = step_back_response ∨
    (process_mediation cerebras_client json_loads messages).mediation_triggered = true := by
  cases cerebras_client with
  | none => exact Or.inl rfl
  | some create =>
    cases hc : create (prompt messages) with
    | failure =>
      refine Or.inr (Or.inl ?_)
      unfold process_mediation
      simp only [hc]
    | success text =>
      rw [process_mediation_success hc]
      cases hs : containsSub (pyStrip text).data SENTINEL.data with
      | true =>
        rw [inner_result_sentinel hs]
        exact Or.inl rfl
      | false =>
        cases he : extractJson (pyStrip text).data with
        | none =>
          rw [inner_result_no_braces hs he]
          exact Or.inr (Or.inr rfl)
        | some js =>
          cases hp : json_loads ⟨js⟩ with
          | none =>
            rw [inner_result_bad_json hs he hp]
            exact Or.inr (Or.inr rfl)
          | some obj =>
            rw [inner_result_parsed hs he hp]
            unfold build_message_response
            cases hr : obj.lookup "response" with
            | none => exact Or.inr (Or.inr rfl)
            | some v =>
              cases v with
              | null => exact Or.inr (Or.inl rfl)
              | str s => exact Or.inr (Or.inr rfl)

theorem process_mediation_prompt_congr (cl : Option (String → CompletionResult))
    (jl : String → Option JsonObj) {m1 m2 : List Message} (hp : prompt m1 = prompt m2) :
    process_mediation cl jl m1 = process_mediation cl jl m2 := by
  unfold process_mediation
  rw [hp]

/-! ### The claims -/

/-- Claim C1: for every configuration of the client, every behaviour of the
external completion call and of the JSON decoder, and every message list, if the
outcome returned by `process_mediation` has `mediation_triggered = false` then all
four NVC fields (observations, feelings, needs, requests) are absent. -/
theorem not_triggered_implies_no_nvc_fields
    (cerebras_client : Option (String → CompletionResult))
    (json_loads : String → Option JsonObj) (messages : List Message)
    (h : (process_mediation cerebras_client json_loads messages).mediation_triggered = false) :
    (process_mediation cerebras_client json_loads messages).observations = none ∧
    (process_mediation cerebras_client json_loads messages).feelings = none ∧
    (process_mediation cerebras_client json_loads messages).needs = none ∧
    (process_mediation cerebras_client json_loads messages).requests = none := by
  rcases process_mediation_cases cerebras_client json_loads messages with he | he | he
  · rw [he]
    exact ⟨rfl, rfl, rfl, rfl⟩
  · rw [he]
    exact ⟨rfl, rfl, rfl, rfl⟩
  · rw [h] at he
    exact absurd he (by simp)

theorem not_triggered_implies_no_nvc_fields_witness :
    (process_mediation none (fun _ => none) []).mediation_triggered = false ∧
    ((process_mediation none (fun _ => none) []).observations = none ∧
     (process_mediation none (fun _ => none) []).feelings = none ∧
     (process_mediation none (fun _ => none) []).needs = none ∧
     (process_mediation none (fun _ => none) []).requests = none) :=
  ⟨rfl, not_triggered_implies_no_nvc_fields none (fun _ => none) [] rfl⟩

/-- Claim C2: whenever the external call succeeds with a text that contains the
literal sentinel `[[NO MEDIATION NEEDED]]` anywhere — regardless of what the JSON
decoder would do and of any braces also present in the text — the processor
returns exactly the listening outcome with `mediation_triggered = false`; the
sentinel check precedes and supersedes any JSON extraction. -/
theorem sentinel_text_returns_listening (create : String → CompletionResult)
    (json_loads : String → Option JsonObj) (messages : List Message) (text : String)
    (hc : create (prompt messages) = CompletionResult.success text)
    (hs : containsSub text.data SENTINEL.data = true) :
    process_mediation (some create) json_loads messages = listening_response := by
  rw [process_mediation_success hc,
    inner_result_sentinel (by rw [pyStrip_data]; exact sentinel_in_strip hs)]

theorem sentinel_text_returns_listening_witness :
    ((fun _ : String => CompletionResult.success "Sure. \x7b\x7d [[NO MEDIATION NEEDED]]")
        (prompt []) = CompletionResult.success "Sure. \x7b\x7d [[NO MEDIATION NEEDED]]") ∧
    containsSub "Sure. \x7b\x7d [[NO MEDIATION NEEDED]]".data SENTINEL.data = true ∧
    process_mediation
      (some (fun _ => CompletionResult.success "Sure. \x7b\x7d [[NO MEDIATION NEEDED]]"))
      (fun _ => some [("response", JsonVal.str "X")]) [] = listening_response :=
  ⟨rfl, by decide, sentinel_text_returns_listening _ _ [] _ rfl (by decide)⟩

/-- Claim C4: whenever the external completion call fails (raises), the processor
swallows the failure and returns exactly the step-back fallback with
`mediation_triggered = false`. -/
theorem api_failure_returns_step_back (create : String → CompletionResult)
    (json_loads : String → Option JsonObj) (messages : List Message)
    (h : create (prompt messages) = CompletionResult.failure) :
    process_mediation (some create) json_loads messages = step_back_response := by
  unfold process_mediation
  simp only [h]

theorem api_failure_returns_step_back_witness :
    ((fun _ : String => CompletionResult.failure) (prompt []) = CompletionResult.failure) ∧
    process_mediation (some (fun _ => CompletionResult.failure)) (fun _ => none) [] =
      step_back_response :=
  ⟨rfl, api_failure_returns_step_back _ (fun _ => none) [] rfl⟩

/-- Claim C5: when no completion client is configured, the processor
deterministically returns the listening outcome for every message list (including
the empty one) and every decoder, making no use of any external behaviour. -/
theorem no_client_returns_listening (json_loads : String → Option JsonObj)
    (messages : List Message) :
    process_mediation none json_loads messages = listening_response := rfl

/-- Claim C7: two message lists that agree on their last five messages yield the
same constructed prompt and the same outcome, for every client configuration and
decoder; in particular changing the first message of a seven-message list changes
nothing. -/
theorem last_five_messages_determine_outcome (m1 m2 : List Message)
    (cerebras_client : Option (String → CompletionResult))
    (json_loads : String → Option JsonObj)
    (h : lastFive m1 = lastFive m2) :
    prompt m1 = prompt m2 ∧
    process_mediation cerebras_client json_loads m1 =
      process_mediation cerebras_client json_loads m2 := by
  have hp : prompt m1 = prompt m2 := by
    unfold prompt messages_text
    rw [h]
  exact ⟨hp, process_mediation_prompt_congr cerebras_client json_loads hp⟩

theorem last_five_messages_determine_outcome_witness :
    lastFive [⟨"a", "one"⟩, ⟨"b", "two"⟩, ⟨"c", "three"⟩, ⟨"d", "four"⟩,
        ⟨"e", "five"⟩, ⟨"f", "six"⟩, ⟨"g", "seven"⟩] =
      lastFive [⟨"CHANGED", "DIFFERENT"⟩, ⟨"b", "two"⟩, ⟨"c", "three"⟩, ⟨"d", "four"⟩,
        ⟨"e", "five"⟩, ⟨"f", "six"⟩, ⟨"g", "seven"⟩] ∧
    (prompt [⟨"a", "one"⟩, ⟨"b", "two"⟩, ⟨"c", "three"⟩, ⟨"d", "four"⟩,
        ⟨"e", "five"⟩, ⟨"f", "six"⟩, ⟨"g", "seven"⟩] =
      prompt [⟨"CHANGED", "DIFFERENT"⟩, ⟨"b", "two"⟩, ⟨"c", "three"⟩, ⟨"d", "four"⟩,
        ⟨"e", "five"⟩, ⟨"f", "six"⟩, ⟨"g", "seven"⟩] ∧
     process_mediation (some (fun _ => CompletionResult.failure)) (fun _ => none)
        [⟨"a", "one"⟩, ⟨"b", "two"⟩, ⟨"c", "three"⟩, ⟨"d", "four"⟩,
         ⟨"e", "five"⟩, ⟨"f", "six"⟩, ⟨"g", "seven"⟩] =
      process_mediation (some (fun _ => CompletionResult.failure)) (fun _ => none)
        [⟨"CHANGED", "DIFFERENT"⟩, ⟨"b", "two"⟩, ⟨"c", "three"⟩, ⟨"d", "four"⟩,
         ⟨"e", "five"⟩, ⟨"f", "six"⟩, ⟨"g", "seven"⟩]) :=
  ⟨by decide, last_five_messages_determine_outcome _ _
    (some (fun _ => CompletionResult.failure)) (fun _ => none) (by decide)⟩

/-- Claim C8: for every input and every behaviour of the external call and of the
decoder, the processor totally produces an outcome — no error escapes its
boundary — and every non-triggered outcome is one of the two explicit fallbacks. -/
theorem process_mediation_never_raises
    (cerebras_client : Option (String → CompletionResult))
    (json_loads : String → Option JsonObj) (messages : List Message) :
    ∃ r : MessageResponse,
      process_mediation cerebras_client json_loads messages = r ∧
      (r = listening_response ∨ r = step_back_response ∨ r.mediation_triggered = true) :=
  ⟨process_mediation cerebras_client json_loads messages, rfl,
    process_mediation_cases cerebras_client json_loads messages⟩

/-- Claim C3 (counterexample): the external call returns the valid JSON object
text with the key `"response"` bound to JSON `null` and no sentinel; the claim's
hypotheses all hold (no sentinel, brace extraction succeeds, decoding succeeds),
yet the processor returns the step-back fallback with
`mediation_triggered = false`, not a triggered outcome: `dict.get` returns the
stored `None`, the pydantic constructor rejects it for the required `str` field
`response`, and the outer `except Exception` produces the failure fallback. -/
theorem parsed_null_response_counterexample :
    containsSub "\x7b\"response\": null\x7d".data SENTINEL.data = false ∧
    extractJson "\x7b\"response\": null\x7d".data =
      some "\x7b\"response\": null\x7d".data ∧
    ((fun s => if s = ("\x7b\"response\": null\x7d" : String)
        then some [("response", JsonVal.null)] else none)
      ("\x7b\"response\": null\x7d" : String) = some [("response", JsonVal.null)]) ∧
    process_mediation
      (some (fun _ => CompletionResult.success "\x7b\"response\": null\x7d"))
      (fun s => if s = ("\x7b\"response\": null\x7d" : String)
        then some [("response", JsonVal.null)] else none) [] = step_back_response ∧
    step_back_response.mediation_triggered = false := by
  refine ⟨by decide, by decide, by decide, ?_, rfl⟩
  decide

/-- Claim C3 (amended): when the external call succeeds with a sentinel-free text
whose first-`{`-to-last-`}` substring decodes to a JSON object, and the object
does not bind the key `"response"` to JSON `null`, the processor returns a
triggered outcome whose `response` is the decoded `"response"` string (or the
literal `"Let me help mediate this conversation."` when that key is absent) and
whose four NVC fields are the decoded string values when present (JSON `null`
counting as absent), absent otherwise.  (When `"response"` is bound to `null`,
the constructor fails validation and the step-back fallback is returned instead —
see the counterexample.) -/
theorem parsed_json_outcome (create : String → CompletionResult)
    (json_loads : String → Option JsonObj) (messages : List Message) (text : String)
    (js : List Char) (obj : JsonObj)
    (hc : create (prompt messages) = CompletionResult.success text)
    (hs : containsSub text.data SENTINEL.data = false)
    (he : extractJson text.data = some js)
    (hp : json_loads ⟨js⟩ = some obj)
    (hr : obj.lookup "response" ≠ some JsonVal.null) :
    process_mediation (some create) json_loads messages =
      { response :=
          match obj.lookup "response" with
          | some (JsonVal.str s) => s
          | _ => "Let me help mediate this conversation.",
        mediation_triggered := true,
        observations := nvcGet obj "observations",
        feelings := nvcGet obj "feelings",
        needs := nvcGet obj "needs",
        requests := nvcGet obj "requests" } := by
  have hs' : containsSub (pyStrip text).data SENTINEL.data = false := by
    rw [pyStrip_data]
    exact no_sentinel_strip hs
  have he' : extractJson (pyStrip text).data = some js := by
    rw [pyStrip_data, extractJson_strip]
    exact he
  rw [process_mediation_success hc, inner_result_parsed hs' he' hp]
  unfold build_message_response
  cases hl : obj.lookup "response" with
  | none => rfl
  | some v =>
    cases v with
    | null => exact absurd hl hr
    | str s => rfl

set_option maxRecDepth 4096 in
theorem parsed_json_outcome_witness :
    containsSub "\x7b\"response\": \"R\", \"observations\": \"O\"\x7d".data
      SENTINEL.data = false ∧
    extractJson "\x7b\"response\": \"R\", \"observations\": \"O\"\x7d".data =
      some "\x7b\"response\": \"R\", \"observations\": \"O\"\x7d".data ∧
    process_mediation
      (some (fun _ => CompletionResult.success
        "\x7b\"response\": \"R\", \"observations\": \"O\"\x7d"))
      (fun s => if s = ("\x7b\"response\": \"R\", \"observations\": \"O\"\x7d" : String)
        then some [("response", JsonVal.str "R"), ("observations", JsonVal.str "O")]
        else none) [] =
      { response := "R", mediation_triggered := true, observations := some "O",
        feelings := none, needs := none, requests := none } :=
  ⟨by decide, by decide,
    parsed_json_outcome
      (fun _ => CompletionResult.success "\x7b\"response\": \"R\", \"observations\": \"O\"\x7d")
      (fun s => if s = ("\x7b\"response\": \"R\", \"observations\": \"O\"\x7d" : String)
        then some [("response", JsonVal.str "R"), ("observations", JsonVal.str "O")]
        else none)
      [] "\x7b\"response\": \"R\", \"observations\": \"O\"\x7d"
      "\x7b\"response\": \"R\", \"observations\": \"O\"\x7d".data
      [("response", JsonVal.str "R"), ("observations", JsonVal.str "O")]
      rfl (by decide) (by decide) (by decide) (by decide)⟩

/-- Claim C6: when the external call succeeds with a sentinel-free text in which
either no `{`/`}` pair is found, or the brace-delimited substring fails to
decode, the processor returns the full trimmed text as the response with
`mediation_triggered = true` and all four NVC fields absent; the decode failure
does not escape the processor. -/
theorem unparseable_text_raw_fallback (create : String → CompletionResult)
    (json_loads : String → Option JsonObj) (messages : List Message) (text : String)
    (hc : create (prompt messages) = CompletionResult.success text)
    (hs : containsSub text.data SENTINEL.data = false)
    (hor : extractJson text.data = none ∨
      ∃ js, extractJson text.data = some js ∧ json_loads ⟨js⟩ = none) :
    process_mediation (some create) json_loads messages =
      { response := pyStrip text, mediation_triggered := true } := by
  have hs' : containsSub (pyStrip text).data SENTINEL.data = false := by
    rw [pyStrip_data]
    exact no_sentinel_strip hs
  rcases hor with he | ⟨js, he, hp⟩
  · rw [process_mediation_success hc,
      inner_result_no_braces hs' (by rw [pyStrip_data, extractJson_strip]; exact he)]
  · rw [process_mediation_success hc,
      inner_result_bad_json hs' (by rw [pyStrip_data, extractJson_strip]; exact he) hp]

theorem unparseable_text_raw_fallback_witness :
    containsSub "\x7bresponse: broken\x7d".data SENTINEL.data = false ∧
    process_mediation (some (fun _ => CompletionResult.success "\x7bresponse: broken\x7d"))
      (fun _ => none) [] =
      { response := pyStrip "\x7bresponse: broken\x7d", mediation_triggered := true } :=
  ⟨by decide, unparseable_text_raw_fallback _ _ [] _ rfl (by decide)
    (Or.inr ⟨"\x7bresponse: broken\x7d".data, by decide, rfl⟩)⟩

/-- Claim C9: when the external call succeeds with a sentinel-free text that
contains both braces but whose last `}` occurs before its first `{`, the
extraction condition fails, no decode is attempted (the decoder is arbitrary and
absent from the conclusion), and the processor returns the full trimmed text with
`mediation_triggered = true` and no NVC fields — the same outcome as for a text
with no braces at all. -/
theorem braces_wrong_order_raw_fallback (create : String → CompletionResult)
    (json_loads : String → Option JsonObj) (messages : List Message) (text : String)
    (i j : Nat)
    (hc : create (prompt messages) = CompletionResult.success text)
    (hs : containsSub text.data SENTINEL.data = false)
    (hf : findIdxC '{' text.data = some i)
    (hr : rfindIdxC '}' text.data = some j)
    (hj : j < i) :
    process_mediation (some create) json_loads messages =
      { response := pyStrip text, mediation_triggered := true } := by
  have he : extractJson text.data = none := by
    rw [extractJson_some_some hf hr, if_neg (by omega)]
  rw [process_mediation_success hc,
    inner_result_no_braces (by rw [pyStrip_data]; exact no_sentinel_strip hs)
      (by rw [pyStrip_data, extractJson_strip]; exact he)]

theorem braces_wrong_order_raw_fallback_witness :
    findIdxC '{' "\x7d oops \x7b".data = some 7 ∧
    rfindIdxC '}' "\x7d oops \x7b".data = some 0 ∧
    process_mediation (some (fun _ => CompletionResult.success "\x7d oops \x7b"))
      (fun _ => some [("response", JsonVal.str "X")]) [] =
      { response := pyStrip "\x7d oops \x7b", mediation_triggered := true } :=
  ⟨by decide, by decide,
    braces_wrong_order_raw_fallback _ _ [] _ 7 0 rfl (by decide) (by decide) (by decide)
      (by decide)⟩

theorem lookup_removeKey_self (k : String) (obj : JsonObj) :
    (removeKey k obj).lookup k = none := by
  induction obj with
  | nil => rfl
  | cons kv rest ih =>
    obtain ⟨key, v⟩ := kv
    unfold removeKey
    by_cases h : key = k
    · rw [if_pos h]
      exact ih
    · rw [if_neg h]
      show List.lookup k ((key, v) :: removeKey k rest) = none
      simp only [List.lookup]
      have hb : (k == key) = false := by simp [Ne.symm h]
      rw [hb]
      exact ih

theorem lookup_removeKey_ne (k key : String) (obj : JsonObj) (h : key ≠ k) :
    (removeKey k obj).lookup key = obj.lookup key := by
  induction obj with
  | nil => rfl
  | cons kv rest ih =>
    obtain ⟨key2, v⟩ := kv
    unfold removeKey
    by_cases h2 : key2 = k
    · rw [if_pos h2, ih]
      subst h2
      show List.lookup key rest = List.lookup key ((key2, v) :: rest)
      simp only [List.lookup]
      have hb : (key == key2) = false := by simp [h]
      rw [hb]
    · rw [if_neg h2]
      show List.lookup key ((key2, v) :: removeKey k rest) =
        List.lookup key ((key2, v) :: rest)
      simp only [List.lookup]
      cases hb : key == key2 with
      | true => rfl
      | false => exact ih

theorem nvcGet_removeKey (obj : JsonObj) (k key : String)
    (hv : obj.lookup k = some JsonVal.null) :
    nvcGet (removeKey k obj) key = nvcGet obj key := by
  by_cases hkey : key = k
  · subst hkey
    unfold nvcGet
    rw [lookup_removeKey_self, hv]
  · unfold nvcGet
    rw [lookup_removeKey_ne k key obj hkey]

theorem build_removeKey (obj : JsonObj) (k : String) (hne : k ≠ "response")
    (hv : obj.lookup k = some JsonVal.null) :
    build_message_response (removeKey k obj) = build_message_response obj := by
  unfold build_message_response
  rw [lookup_removeKey_ne k "response" obj (Ne.symm hne),
    nvcGet_removeKey obj k "observations" hv, nvcGet_removeKey obj k "feelings" hv,
    nvcGet_removeKey obj k "needs" hv, nvcGet_removeKey obj k "requests" hv]

theorem nvcProj_observations (r : MessageResponse) :
    nvcProj r "observations" = r.observations := by
  unfold nvcProj
  rw [if_pos rfl]

theorem nvcProj_feelings (r : MessageResponse) :
    nvcProj r "feelings" = r.feelings := by
  unfold nvcProj
  rw [if_neg (by decide), if_pos rfl]

theorem nvcProj_needs (r : MessageResponse) :
    nvcProj r "needs" = r.needs := by
  unfold nvcProj
  rw [if_neg (by decide), if_neg (by decide), if_pos rfl]

theorem nvcProj_requests (r : MessageResponse) :
    nvcProj r "requests" = r.requests := by
  unfold nvcProj
  rw [if_neg (by decide), if_neg (by decide), if_neg (by decide), if_pos rfl]

/-- Claim C10: when the decoded object binds one of the four NVC keys to JSON
`null`, the outcome leaves that field absent, and the outcome is identical to the
one produced for the same object with that key removed entirely — a caller cannot
distinguish an explicit `null` from a missing key. -/
theorem null_nvc_field_equals_missing (create : String → CompletionResult)
    (json_loads json_loads2 : String → Option JsonObj) (messages : List Message)
    (text : String) (js : List Char) (obj : JsonObj) (k : String)
    (hc : create (prompt messages) = CompletionResult.success text)
    (hs : containsSub text.data SENTINEL.data = false)
    (he : extractJson text.data = some js)
    (hp : json_loads ⟨js⟩ = some obj)
    (hk : k ∈ nvcKeys)
    (hv : obj.lookup k = some JsonVal.null)
    (hp2 : json_loads2 ⟨js⟩ = some (removeKey k obj)) :
    nvcProj (process_mediation (some create) json_loads messages) k = none ∧
    process_mediation (some create) json_loads messages =
      process_mediation (some create) json_loads2 messages := by
  have hs' : containsSub (pyStrip text).data SENTINEL.data = false := by
    rw [pyStrip_data]
    exact no_sentinel_strip hs
  have he' : extractJson (pyStrip text).data = some js := by
    rw [pyStrip_data, extractJson_strip]
    exact he
  have e1 : inner_result json_loads (pyStrip text) = build_message_response obj :=
    inner_result_parsed hs' he' hp
  have e2 : inner_result json_loads2 (pyStrip text) =
      build_message_response (removeKey k obj) :=
    inner_result_parsed hs' he' hp2
  simp only [nvcKeys, List.mem_cons, List.not_mem_nil, or_false] at hk
  have hkne : k ≠ "response" := by
    rcases hk with rfl | rfl | rfl | rfl <;> decide
  constructor
  · rw [process_mediation_success hc, e1]
    unfold build_message_response
    cases hl : obj.lookup "response" with
    | none =>
      rcases hk with rfl | rfl | rfl | rfl
      · rw [nvcProj_observations]
        show nvcGet obj "observations" = none
        unfold nvcGet
        rw [hv]
      · rw [nvcProj_feelings]
        show nvcGet obj "feelings" = none
        unfold nvcGet
        rw [hv]
      · rw [nvcProj_needs]
        show nvcGet obj "needs" = none
        unfold nvcGet
        rw [hv]
      · rw [nvcProj_requests]
        show nvcGet obj "requests" = none
        unfold nvcGet
        rw [hv]
    | some v =>
      cases v with
      | null =>
        rcases hk with rfl | rfl | rfl | rfl
        · rw [nvcProj_observations]
          rfl
        · rw [nvcProj_feelings]
          rfl
        · rw [nvcProj_needs]
          rfl
        · rw [nvcProj_requests]
          rfl
      | str s =>
        rcases hk with rfl | rfl | rfl | rfl
        · rw [nvcProj_observations]
          show nvcGet obj "observations" = none
          unfold nvcGet
          rw [hv]
        · rw [nvcProj_feelings]
          show nvcGet obj "feelings" = none
          unfold nvcGet
          rw [hv]
        · rw [nvcProj_needs]
          show nvcGet obj "needs" = none
          unfold nvcGet
          rw [hv]
        · rw [nvcProj_requests]
          show nvcGet obj "requests" = none
          unfold nvcGet
          rw [hv]
  · rw [process_mediation_success hc, process_mediation_success hc, e1, e2,
      build_removeKey obj k hkne hv]

set_option maxRecDepth 4096 in
theorem null_nvc_field_equals_missing_witness :
    ("observations" ∈ nvcKeys) ∧
    (([("observations", JsonVal.null)] : JsonObj).lookup "observations" =
      some JsonVal.null) ∧
    (nvcProj (process_mediation
        (some (fun _ => CompletionResult.success "\x7b\"observations\": null\x7d"))
        (fun s => if s = ("\x7b\"observations\": null\x7d" : String)
          then some [("observations", JsonVal.null)] else none) []) "observations" = none ∧
      process_mediation
        (some (fun _ => CompletionResult.success "\x7b\"observations\": null\x7d"))
        (fun s => if s = ("\x7b\"observations\": null\x7d" : String)
          then some [("observations", JsonVal.null)] else none) [] =
      process_mediation
        (some (fun _ => CompletionResult.success "\x7b\"observations\": null\x7d"))
        (fun s => if s = ("\x7b\"observations\": null\x7d" : String)
          then some [] else none) []) :=
  ⟨by decide, by decide,
    null_nvc_field_equals_missing
      (fun _ => CompletionResult.success "\x7b\"observations\": null\x7d")
      (fun s => if s = ("\x7b\"observations\": null\x7d" : String)
        then some [("observations", JsonVal.null)] else none)
      (fun s => if s = ("\x7b\"observations\": null\x7d" : String)
        then some [] else none)
      [] "\x7b\"observations\": null\x7d" "\x7b\"observations\": null\x7d".data
      [("observations", JsonVal.null)] "observations"
      rfl (by decide) (by decide) (by decide) (by decide) (by decide) (by decide)⟩
